import Mathlib

/-!
Verification development for the rechnungs-api JavaScript/TypeScript client
(`src/index.ts`).  The client is a thin HTTP wrapper: every public method
builds one HTTP request (URL, method, headers, optional JSON body) and maps
the HTTP response either to a decoded value or to a thrown error.

The embedding below models:
* the runtime values that may appear in a query-parameter record
  (strings, numbers, `null`, and explicitly-`undefined` properties);
* `queryParamsToString` including `Object.fromEntries` and
  `URLSearchParams.toString()` (application/x-www-form-urlencoded output);
* JSON values together with executable `JSON.parse` / `JSON.stringify`
  models (`jsonParse`, `renderJson`), used for `response.json()` and
  request bodies;
* HTTP requests and responses as plain records;
* the `Client` class: its constructor defaults, its header computation,
  and, for every public method, the request it issues (`...Request`) and
  the function from the received `Response` to the returned value or
  thrown error (`...Handle`).

Faults (a JavaScript `TypeError` from calling `toString` on `undefined`)
are modelled by `Option`/`none`; thrown values are modelled by
`Except Thrown`.
-/

/-- A value stored in a query-parameter record at runtime.  The declared
TypeScript type is `string | number | null`, but at runtime an optional
property may also be present with the value `undefined`. -/
inductive QVal where
  | str (s : String)
  | num (n : Int)
  | null
  | undef
deriving DecidableEq, Repr

/-- UTF-8 encoding of a single character, as a list of byte values. -/
def utf8Bytes (c : Char) : List Nat :=
  let n := c.toNat
  if n < 0x80 then [n]
  else if n < 0x800 then [0xC0 + n / 64, 0x80 + n % 64]
  else if n < 0x10000 then [0xE0 + n / 4096, 0x80 + (n / 64) % 64, 0x80 + n % 64]
  else [0xF0 + n / 262144, 0x80 + (n / 4096) % 64, 0x80 + (n / 64) % 64, 0x80 + n % 64]

/-- Bytes that `URLSearchParams` serialization leaves unescaped:
ASCII alphanumerics and `*`, `-`, `.`, `_`. -/
def isFormSafeByte (b : Nat) : Bool :=
  decide ((0x30 ≤ b ∧ b ≤ 0x39) ∨ (0x41 ≤ b ∧ b ≤ 0x5A) ∨ (0x61 ≤ b ∧ b ≤ 0x7A)
    ∨ b = 0x2A ∨ b = 0x2D ∨ b = 0x2E ∨ b = 0x5F)

/-- Upper-case hexadecimal digit. -/
def hexDigitUpper (n : Nat) : Char :=
  if n < 10 then Char.ofNat (48 + n) else Char.ofNat (55 + n)

/-- Serialize one byte the way `URLSearchParams.toString()` does:
space becomes `+`, safe bytes stay literal, everything else is
percent-encoded. -/
def formUrlEncodeByte (b : Nat) : List Char :=
  if b = 0x20 then ['+']
  else if isFormSafeByte b then [Char.ofNat b]
  else ['%', hexDigitUpper (b / 16 % 16), hexDigitUpper (b % 16)]

/-- application/x-www-form-urlencoded serialization of a string
(UTF-8 bytes, then per-byte escaping), as `URLSearchParams` performs it. -/
def formUrlEncode (s : String) : String :=
  String.mk ((s.data.flatMap utf8Bytes).flatMap formUrlEncodeByte)

/-- Property assignment on a JavaScript object represented as an ordered
association list: an existing key keeps its position and gets the new
value, a new key is appended. -/
def setEntry (m : List (String × String)) (k v : String) : List (String × String) :=
  if m.any (fun p => p.1 = k) then
    m.map (fun p => if p.1 = k then (k, v) else p)
  else m ++ [(k, v)]

/-- Model of `Object.fromEntries`: assign each pair in order. -/
def fromEntriesJs (ps : List (String × String)) : List (String × String) :=
  ps.foldl (fun m p => setEntry m p.1 p.2) []

/-- Model of the `flatMap` step of `queryParamsToString`: drop pairs whose
value is `null`, stringify the rest.  A pair whose value is `undefined`
makes `value.toString()` throw a `TypeError`; the fault is `none`. -/
def flatMapEntries : List (String × QVal) → Option (List (String × String))
  | [] => some []
  | (_, QVal.null) :: rest => flatMapEntries rest
  | (_, QVal.undef) :: _ => none
  | (k, QVal.str s) :: rest => (flatMapEntries rest).map (fun r => (k, s) :: r)
  | (k, QVal.num n) :: rest => (flatMapEntries rest).map (fun r => (k, toString n) :: r)

/-- Serialization of an ordered key/value list, as
`URLSearchParams.toString()` renders it. -/
def serializeSearchParams (ps : List (String × String)) : String :=
  String.intercalate "&" (ps.map (fun p => formUrlEncode p.1 ++ "=" ++ formUrlEncode p.2))

/-- Model of `queryParamsToString` (src/index.ts lines 30-42).
`none` as argument is the absent (`undefined`) record; `none` as result
is the `TypeError` fault from stringifying an `undefined` value. -/
def queryParamsToString (params : Option (List (String × QVal))) : Option String :=
  match params with
  | none => some ""
  | some ps => (flatMapEntries ps).map (fun pairs => serializeSearchParams (fromEntriesJs pairs))

/-- JSON values, the result type of `response.json()` and the argument
type of `JSON.stringify`.  Number literals are kept as their lexemes. -/
inductive Json where
  | null
  | bool (b : Bool)
  | num (lexeme : String)
  | str (s : String)
  | arr (elems : List Json)
  | obj (members : List (String × Json))

/-- Skip JSON whitespace. -/
def skipWs : List Char → List Char
  | c :: rest => if c = ' ' ∨ c = '\t' ∨ c = '\n' ∨ c = '\r' then skipWs rest else c :: rest
  | [] => []

/-- Value of a hexadecimal digit, if any. -/
def parseHexDigit (c : Char) : Option Nat :=
  if '0' ≤ c ∧ c ≤ '9' then some (c.toNat - 48)
  else if 'a' ≤ c ∧ c ≤ 'f' then some (c.toNat - 87)
  else if 'A' ≤ c ∧ c ≤ 'F' then some (c.toNat - 55)
  else none

/-- Parse the remainder of a JSON string literal (the opening quote is
already consumed), returning its characters and the rest of the input. -/
def parseStringRest : Nat → List Char → Option (List Char × List Char)
  | 0, _ => none
  | _, [] => none
  | fuel + 1, c :: rest =>
    if c = '"' then some ([], rest)
    else if c = '\\' then
      match rest with
      | [] => none
      | e :: rest2 =>
        if e = '"' ∨ e = '\\' ∨ e = '/' then
          (parseStringRest fuel rest2).map (fun r => (e :: r.1, r.2))
        else if e = 'n' then (parseStringRest fuel rest2).map (fun r => ('\n' :: r.1, r.2))
        else if e = 't' then (parseStringRest fuel rest2).map (fun r => ('\t' :: r.1, r.2))
        else if e = 'r' then (parseStringRest fuel rest2).map (fun r => ('\r' :: r.1, r.2))
        else if e = 'b' then (parseStringRest fuel rest2).map (fun r => (Char.ofNat 8 :: r.1, r.2))
        else if e = 'f' then (parseStringRest fuel rest2).map (fun r => (Char.ofNat 12 :: r.1, r.2))
        else if e = 'u' then
          match rest2 with
          | h1 :: h2 :: h3 :: h4 :: rest3 =>
            match parseHexDigit h1, parseHexDigit h2, parseHexDigit h3, parseHexDigit h4 with
            | some a, some b, some c2, some d =>
              (parseStringRest fuel rest3).map
                (fun r => (Char.ofNat (a * 4096 + b * 256 + c2 * 16 + d) :: r.1, r.2))
            | _, _, _, _ => none
          | _ => none
        else none
    else if c.toNat < 0x20 then none
    else (parseStringRest fuel rest).map (fun r => (c :: r.1, r.2))

/-- Parse the integer part of a JSON number (`0`, or a nonzero digit
followed by digits). -/
def parseIntPart : List Char → Option (List Char × List Char)
  | [] => none
  | c :: rest =>
    if c = '0' then some (['0'], rest)
    else if c.isDigit then
      match List.span Char.isDigit rest with
      | (ds, rest2) => some (c :: ds, rest2)
    else none

/-- Parse the optional fraction part of a JSON number. -/
def parseFracPart : List Char → Option (List Char × List Char)
  | '.' :: rest =>
    (match List.span Char.isDigit rest with
     | ([], _) => none
     | (ds, rest2) => some ('.' :: ds, rest2))
  | cs => some ([], cs)

/-- Parse the optional exponent part of a JSON number. -/
def parseExpPart : List Char → Option (List Char × List Char)
  | [] => some ([], [])
  | c :: rest =>
    if c = 'e' ∨ c = 'E' then
      match (match rest with
             | s :: r2 => if s = '+' ∨ s = '-' then ([s], r2) else (([] : List Char), rest)
             | [] => (([] : List Char), rest)) with
      | (sgn, rest2) =>
        match List.span Char.isDigit rest2 with
        | ([], _) => none
        | (ds, rest3) => some (c :: (sgn ++ ds), rest3)
    else some ([], c :: rest)

/-- Parse a JSON number, returning its lexeme. -/
def parseNumber (cs : List Char) : Option (String × List Char) :=
  match (match cs with
         | '-' :: rest => (['-'], rest)
         | _ => (([] : List Char), cs)) with
  | (sign, cs1) =>
    match parseIntPart cs1 with
    | none => none
    | some (ip, cs2) =>
      match parseFracPart cs2 with
      | none => none
      | some (fp, cs3) =>
        match parseExpPart cs3 with
        | none => none
        | some (ep, cs4) => some (String.mk (sign ++ ip ++ fp ++ ep), cs4)

mutual

/-- Parse one JSON value. -/
def parseValue : Nat → List Char → Option (Json × List Char)
  | 0, _ => none
  | fuel + 1, cs =>
    match skipWs cs with
    | 'n' :: 'u' :: 'l' :: 'l' :: rest => some (Json.null, rest)
    | 't' :: 'r' :: 'u' :: 'e' :: rest => some (Json.bool true, rest)
    | 'f' :: 'a' :: 'l' :: 's' :: 'e' :: rest => some (Json.bool false, rest)
    | '"' :: rest => (parseStringRest (rest.length + 1) rest).map
        (fun r => (Json.str (String.mk r.1), r.2))
    | '[' :: rest =>
      (match skipWs rest with
       | ']' :: rest2 => some (Json.arr [], rest2)
       | cs2 => (parseElements fuel cs2).map (fun r => (Json.arr r.1, r.2)))
    | '{' :: rest =>
      (match skipWs rest with
       | '}' :: rest2 => some (Json.obj [], rest2)
       | cs2 => (parseMembers fuel cs2).map (fun r => (Json.obj r.1, r.2)))
    | cs1 => (parseNumber cs1).map (fun r => (Json.num r.1, r.2))

/-- Parse the elements of a nonempty JSON array, up to and including the
closing bracket. -/
def parseElements : Nat → List Char → Option (List Json × List Char)
  | 0, _ => none
  | fuel + 1, cs =>
    match parseValue fuel cs with
    | none => none
    | some (j, rest) =>
      match skipWs rest with
      | ',' :: rest2 => (parseElements fuel rest2).map (fun r => (j :: r.1, r.2))
      | ']' :: rest2 => some ([j], rest2)
      | _ => none

/-- Parse the members of a nonempty JSON object, up to and including the
closing brace. -/
def parseMembers : Nat → List Char → Option (List (String × Json) × List Char)
  | 0, _ => none
  | fuel + 1, cs =>
    match skipWs cs with
    | '"' :: rest =>
      (match parseStringRest (rest.length + 1) rest with
       | none => none
       | some (kcs, rest2) =>
         match skipWs rest2 with
         | ':' :: rest3 =>
           (match parseValue fuel rest3 with
            | none => none
            | some (v, rest4) =>
              match skipWs rest4 with
              | ',' :: rest5 => (parseMembers fuel rest5).map
                  (fun r => ((String.mk kcs, v) :: r.1, r.2))
              | '}' :: rest5 => some ([(String.mk kcs, v)], rest5)
              | _ => none)
         | _ => none)
    | _ => none

end

/-- Model of `JSON.parse` as used by `response.json()`: `none` is a
rejected promise (a `SyntaxError`). -/
def jsonParse (s : String) : Option Json :=
  match parseValue (s.length + 1) s.data with
  | none => none
  | some (j, rest) => if (skipWs rest).isEmpty then some j else none

/-- Escape one character for a JSON string literal, as `JSON.stringify`
does. -/
def renderStringChar (c : Char) : List Char :=
  if c = '"' then ['\\', '"']
  else if c = '\\' then ['\\', '\\']
  else if c = '\n' then ['\\', 'n']
  else if c = '\t' then ['\\', 't']
  else if c = '\r' then ['\\', 'r']
  else if c.toNat = 8 then ['\\', 'b']
  else if c.toNat = 12 then ['\\', 'f']
  else if c.toNat < 0x20 then
    ['\\', 'u', '0', '0',
     (if c.toNat / 16 < 10 then Char.ofNat (48 + c.toNat / 16) else Char.ofNat (87 + c.toNat / 16)),
     (if c.toNat % 16 < 10 then Char.ofNat (48 + c.toNat % 16) else Char.ofNat (87 + c.toNat % 16))]
  else [c]

/-- Render a JSON string literal. -/
def renderString (s : String) : String :=
  String.mk ('"' :: (s.data.flatMap renderStringChar) ++ ['"'])

mutual

/-- Model of `JSON.stringify` (no spacing argument). -/
def renderJson : Json → String
  | Json.null => "null"
  | Json.bool true => "true"
  | Json.bool false => "false"
  | Json.num lx => lx
  | Json.str s => renderString s
  | Json.arr xs => "[" ++ renderElems xs ++ "]"
  | Json.obj ms => "\x7b" ++ renderMembers ms ++ "\x7d"

/-- Render array elements, comma-separated. -/
def renderElems : List Json → String
  | [] => ""
  | [x] => renderJson x
  | x :: y :: rest => renderJson x ++ "," ++ renderElems (y :: rest)

/-- Render object members, comma-separated. -/
def renderMembers : List (String × Json) → String
  | [] => ""
  | [(k, v)] => renderString k ++ ":" ++ renderJson v
  | (k, v) :: m :: rest => renderString k ++ ":" ++ renderJson v ++ "," ++ renderMembers (m :: rest)

end

/-- An HTTP request as handed to `fetch`: URL, method (the `fetch`
default is `GET` when the source omits it), headers, optional body. -/
structure HttpRequest where
  url : String
  httpMethod : String
  headers : List (String × String)
  body : Option String

/-- An HTTP response as seen by the client code: status, headers, and the
body (as text; the binary view is its UTF-8 bytes). -/
structure Response where
  status : Nat
  headers : List (String × String)
  bodyText : String

/-- Model of `response.ok`: status in the inclusive range 200-299. -/
def Response.ok (r : Response) : Bool :=
  decide (200 ≤ r.status ∧ r.status ≤ 299)

/-- Model of `response.text()`. -/
def Response.text (r : Response) : String := r.bodyText

/-- Model of `response.arrayBuffer()`: the raw bytes of the body. -/
def Response.arrayBuffer (r : Response) : List Nat :=
  r.bodyText.data.flatMap utf8Bytes

/-- Model of `response.json()`; `none` is the rejected promise on a body
that is not valid JSON. -/
def Response.json (r : Response) : Option Json :=
  jsonParse r.bodyText

/-- The error class of src/index.ts lines 19-28: a numeric HTTP status
together with the JSON-parsed response body. -/
structure ApiError where
  status : Nat
  body : Json

/-- A value thrown (as a rejected promise) by a client method: either the
`ApiError` built for a non-2xx response, or the `SyntaxError` raised by
`response.json()` on a body that is not valid JSON. -/
inductive Thrown where
  | apiError (e : ApiError)
  | jsonSyntaxError

/-- Model of `ApiError.fromResponse` (src/index.ts lines 25-27): it
unconditionally parses the body as JSON; if that parse rejects, the
rejection propagates instead of an `ApiError` being produced. -/
def ApiError.fromResponse (r : Response) : Except Thrown ApiError :=
  match Response.json r with
  | some b => Except.ok { status := r.status, body := b }
  | none => Except.error Thrown.jsonSyntaxError

/-- The client configuration: the two private fields assigned in the
constructor and never reassigned anywhere else in the class. -/
structure Client where
  apiKey : String
  baseUrl : String

/-- Model of the constructor (src/index.ts lines 50-59): the base URL
defaults to the production API root when the option is absent. -/
def Client.make (apiKey : String) (baseUrl : Option String) : Client :=
  { apiKey := apiKey, baseUrl := baseUrl.getD "https://www.rechnungs-api.de/api/v1" }

/-- Model of the private `headers` getter (src/index.ts lines 64-69). -/
def Client.headers (c : Client) : List (String × String) :=
  [("Authorization", "ApiKey " ++ c.apiKey), ("Content-Type", "application/json")]

/-- The `format` union type of `readDocument`. -/
inductive DocumentFormat where
  | json
  | xml
  | pdf
deriving DecidableEq, Repr

/-- The string interpolated into the `format` query parameter. -/
def DocumentFormat.toParamString : DocumentFormat → String
  | DocumentFormat.json => "json"
  | DocumentFormat.xml => "xml"
  | DocumentFormat.pdf => "pdf"

/-- The value `readDocument` resolves with: a parsed Document object for
`json`, the raw text for `xml`, the raw bytes for `pdf`. -/
inductive ReadDocumentResult where
  | jsonDoc (d : Json)
  | xmlText (s : String)
  | pdfBinary (bytes : List Nat)

/-- The TypeScript types that appear as declared results of the
`readDocument` overload signatures. -/
inductive TsType where
  | documentTy
  | stringTy
  | arrayBufferTy
deriving DecidableEq, Repr

/-- The return type declared by each of the four TypeScript overload
signatures of `readDocument` (src/index.ts lines 98-101), keyed by the
format argument of the call (`none` is the one-argument call). -/
def readDocumentDeclaredReturn : Option DocumentFormat → TsType
  | none => TsType.arrayBufferTy
  | some DocumentFormat.json => TsType.documentTy
  | some DocumentFormat.xml => TsType.stringTy
  | some DocumentFormat.pdf => TsType.arrayBufferTy

/-- The TypeScript type of a runtime `readDocument` result. -/
def ReadDocumentResult.tsType : ReadDocumentResult → TsType
  | ReadDocumentResult.jsonDoc _ => TsType.documentTy
  | ReadDocumentResult.xmlText _ => TsType.stringTy
  | ReadDocumentResult.pdfBinary _ => TsType.arrayBufferTy

/-- Request issued by `createDocument` (src/index.ts lines 79-87):
POST `/documents` with the JSON-serialized document as body. -/
def Client.createDocumentRequest (c : Client) (document : Json) : HttpRequest :=
  { url := c.baseUrl ++ "/documents", httpMethod := "POST",
    headers := c.headers, body := some (renderJson document) }

/-- Response handling of `createDocument`: throw the `ApiError` on a
non-ok status, otherwise resolve with the JSON-parsed body. -/
def Client.createDocumentHandle (r : Response) : Except Thrown Json :=
  if r.ok = false then
    match ApiError.fromResponse r with
    | Except.ok e => Except.error (Thrown.apiError e)
    | Except.error t => Except.error t
  else
    match Response.json r with
    | some j => Except.ok j
    | none => Except.error Thrown.jsonSyntaxError

/-- Request issued by `readDocument` (src/index.ts lines 102-109):
GET `/documents/{id}?format={format}`; an omitted format argument
defaults to `json`. -/
def Client.readDocumentRequest (c : Client) (id : String)
    (format : Option DocumentFormat) : HttpRequest :=
  { url := c.baseUrl ++ "/documents/" ++ id ++ "?format="
      ++ (format.getD DocumentFormat.json).toParamString,
    httpMethod := "GET", headers := c.headers, body := none }

/-- Response handling of `readDocument` (src/index.ts lines 110-113):
after the error check, the decoder is chosen by the (defaulted) format
argument alone: `xml` takes `response.text()`, `pdf` takes
`response.arrayBuffer()`, otherwise `response.json()`. -/
def Client.readDocumentHandle (format : Option DocumentFormat)
    (r : Response) : Except Thrown ReadDocumentResult :=
  let f := format.getD DocumentFormat.json
  if r.ok = false then
    match ApiError.fromResponse r with
    | Except.ok e => Except.error (Thrown.apiError e)
    | Except.error t => Except.error t
  else if f = DocumentFormat.xml then
    Except.ok (ReadDocumentResult.xmlText (Response.text r))
  else if f = DocumentFormat.pdf then
    Except.ok (ReadDocumentResult.pdfBinary (Response.arrayBuffer r))
  else
    match Response.json r with
    | some d => Except.ok (ReadDocumentResult.jsonDoc d)
    | none => Except.error Thrown.jsonSyntaxError

/-- Request issued by `listLedgers` (src/index.ts lines 119-128):
GET `/ledgers?{query}`; `none` when `queryParamsToString` faults. -/
def Client.listLedgersRequest (c : Client)
    (queryParams : List (String × QVal)) : Option HttpRequest :=
  (queryParamsToString (some queryParams)).map (fun qs =>
    { url := c.baseUrl ++ "/ledgers?" ++ qs, httpMethod := "GET",
      headers := c.headers, body := none })

/-- Response handling of `listLedgers`. -/
def Client.listLedgersHandle (r : Response) : Except Thrown Json :=
  if r.ok = false then
    match ApiError.fromResponse r with
    | Except.ok e => Except.error (Thrown.apiError e)
    | Except.error t => Except.error t
  else
    match Response.json r with
    | some j => Except.ok j
    | none => Except.error Thrown.jsonSyntaxError

/-- Request issued by `createLedger` (src/index.ts lines 136-144):
POST `/ledgers` with the serialized empty object as body. -/
def Client.createLedgerRequest (c : Client) : HttpRequest :=
  { url := c.baseUrl ++ "/ledgers", httpMethod := "POST",
    headers := c.headers, body := some (renderJson (Json.obj [])) }

/-- Response handling of `createLedger`. -/
def Client.createLedgerHandle (r : Response) : Except Thrown Json :=
  if r.ok = false then
    match ApiError.fromResponse r with
    | Except.ok e => Except.error (Thrown.apiError e)
    | Except.error t => Except.error t
  else
    match Response.json r with
    | some j => Except.ok j
    | none => Except.error Thrown.jsonSyntaxError

/-- Request issued by `deleteLedger` (src/index.ts lines 151-158):
DELETE `/ledgers/{ledgerId}`. -/
def Client.deleteLedgerRequest (c : Client) (ledgerId : String) : HttpRequest :=
  { url := c.baseUrl ++ "/ledgers/" ++ ledgerId, httpMethod := "DELETE",
    headers := c.headers, body := none }

/-- Response handling of `deleteLedger`. -/
def Client.deleteLedgerHandle (r : Response) : Except Thrown Json :=
  if r.ok = false then
    match ApiError.fromResponse r with
    | Except.ok e => Except.error (Thrown.apiError e)
    | Except.error t => Except.error t
  else
    match Response.json r with
    | some j => Except.ok j
    | none => Except.error Thrown.jsonSyntaxError

/-- Request issued by `listLedgerAccounts` (src/index.ts lines 163-176):
GET `/ledgers/{ledgerId}/accounts?{query}`. -/
def Client.listLedgerAccountsRequest (c : Client) (ledgerId : String)
    (queryParams : List (String × QVal)) : Option HttpRequest :=
  (queryParamsToString (some queryParams)).map (fun qs =>
    { url := c.baseUrl ++ "/ledgers/" ++ ledgerId ++ "/accounts?" ++ qs,
      httpMethod := "GET", headers := c.headers, body := none })

/-- Response handling of `listLedgerAccounts`. -/
def Client.listLedgerAccountsHandle (r : Response) : Except Thrown Json :=
  if r.ok = false then
    match ApiError.fromResponse r with
    | Except.ok e => Except.error (Thrown.apiError e)
    | Except.error t => Except.error t
  else
    match Response.json r with
    | some j => Except.ok j
    | none => Except.error Thrown.jsonSyntaxError

/-- Request issued by `createLedgerAccount` (src/index.ts lines 184-198):
POST `/ledgers/{ledgerId}/accounts` with the serialized account as body. -/
def Client.createLedgerAccountRequest (c : Client) (ledgerId : String)
    (account : Json) : HttpRequest :=
  { url := c.baseUrl ++ "/ledgers/" ++ ledgerId ++ "/accounts",
    httpMethod := "POST", headers := c.headers, body := some (renderJson account) }

/-- Response handling of `createLedgerAccount`. -/
def Client.createLedgerAccountHandle (r : Response) : Except Thrown Json :=
  if r.ok = false then
    match ApiError.fromResponse r with
    | Except.ok e => Except.error (Thrown.apiError e)
    | Except.error t => Except.error t
  else
    match Response.json r with
    | some j => Except.ok j
    | none => Except.error Thrown.jsonSyntaxError

/-- Request issued by `listLedgerTransactions` (src/index.ts lines
203-216): GET `/ledgers/{ledgerId}/transactions?{query}`. -/
def Client.listLedgerTransactionsRequest (c : Client) (ledgerId : String)
    (queryParams : List (String × QVal)) : Option HttpRequest :=
  (queryParamsToString (some queryParams)).map (fun qs =>
    { url := c.baseUrl ++ "/ledgers/" ++ ledgerId ++ "/transactions?" ++ qs,
      httpMethod := "GET", headers := c.headers, body := none })

/-- Response handling of `listLedgerTransactions`. -/
def Client.listLedgerTransactionsHandle (r : Response) : Except Thrown Json :=
  if r.ok = false then
    match ApiError.fromResponse r with
    | Except.ok e => Except.error (Thrown.apiError e)
    | Except.error t => Except.error t
  else
    match Response.json r with
    | some j => Except.ok j
    | none => Except.error Thrown.jsonSyntaxError

/-- Request issued by `createLedgerTransaction` (src/index.ts lines
221-235): POST `/ledgers/{ledgerId}/transactions` with the serialized
transaction as body. -/
def Client.createLedgerTransactionRequest (c : Client) (ledgerId : String)
    (transaction : Json) : HttpRequest :=
  { url := c.baseUrl ++ "/ledgers/" ++ ledgerId ++ "/transactions",
    httpMethod := "POST", headers := c.headers,
    body := some (renderJson transaction) }

/-- Response handling of `createLedgerTransaction`. -/
def Client.createLedgerTransactionHandle (r : Response) : Except Thrown Json :=
  if r.ok = false then
    match ApiError.fromResponse r with
    | Except.ok e => Except.error (Thrown.apiError e)
    | Except.error t => Except.error t
  else
    match Response.json r with
    | some j => Except.ok j
    | none => Except.error Thrown.jsonSyntaxError

/-- Request issued by `archiveLedgerTransaction` (full index.ts lines
242-255): DELETE `/ledgers/{ledgerId}/transactions/{transactionNumber}`. -/
def Client.archiveLedgerTransactionRequest (c : Client) (ledgerId : String)
    (transactionNumber : Int) : HttpRequest :=
  { url := c.baseUrl ++ "/ledgers/" ++ ledgerId ++ "/transactions/"
      ++ toString transactionNumber,
    httpMethod := "DELETE", headers := c.headers, body := none }

/-- Response handling of `archiveLedgerTransaction`: the parsed body is
returned; per the source documentation it is the newly created reversing
transaction. -/
def Client.archiveLedgerTransactionHandle (r : Response) : Except Thrown Json :=
  if r.ok = false then
    match ApiError.fromResponse r with
    | Except.ok e => Except.error (Thrown.apiError e)
    | Except.error t => Except.error t
  else
    match Response.json r with
    | some j => Except.ok j
    | none => Except.error Thrown.jsonSyntaxError

/-- Request issued by `listLedgerBalances` (src/index.ts lines 240-253):
GET `/ledgers/{ledgerId}/balances?{query}`; the query record itself is
optional here. -/
def Client.listLedgerBalancesRequest (c : Client) (ledgerId : String)
    (queryParams : Option (List (String × QVal))) : Option HttpRequest :=
  (queryParamsToString queryParams).map (fun qs =>
    { url := c.baseUrl ++ "/ledgers/" ++ ledgerId ++ "/balances?" ++ qs,
      httpMethod := "GET", headers := c.headers, body := none })

/-- Response handling of `listLedgerBalances`. -/
def Client.listLedgerBalancesHandle (r : Response) : Except Thrown Json :=
  if r.ok = false then
    match ApiError.fromResponse r with
    | Except.ok e => Except.error (Thrown.apiError e)
    | Except.error t => Except.error t
  else
    match Response.json r with
    | some j => Except.ok j
    | none => Except.error Thrown.jsonSyntaxError

/-- The resource a method's URL path addresses. -/
inductive ApiResource where
  | documents
  | documentById
  | ledgers
  | ledgerById
  | ledgerAccounts
  | ledgerTransactions
  | ledgerTransactionByNumber
  | ledgerBalances
deriving DecidableEq, Repr

/-- One row per public method of the Client class (full index.ts lines
49-274): the method name, the HTTP verb it uses, and the resource its
path addresses. -/
def clientMethodTable : List (String × String × ApiResource) :=
  [("createDocument", "POST", ApiResource.documents),
   ("readDocument", "GET", ApiResource.documentById),
   ("listLedgers", "GET", ApiResource.ledgers),
   ("createLedger", "POST", ApiResource.ledgers),
   ("deleteLedger", "DELETE", ApiResource.ledgerById),
   ("listLedgerAccounts", "GET", ApiResource.ledgerAccounts),
   ("createLedgerAccount", "POST", ApiResource.ledgerAccounts),
   ("listLedgerTransactions", "GET", ApiResource.ledgerTransactions),
   ("createLedgerTransaction", "POST", ApiResource.ledgerTransactions),
   ("archiveLedgerTransaction", "DELETE", ApiResource.ledgerTransactionByNumber),
   ("listLedgerBalances", "GET", ApiResource.ledgerBalances)]

/-- Specification-side description of the query pairs that survive: the
key/value pairs whose value is neither absent nor null, each present
value stringified, in order.  (Named after the spec's words, to be
compared with the behaviour of `queryParamsToString`.) -/
def specKeptPairs : List (String × QVal) → List (String × String)
  | [] => []
  | (_, QVal.null) :: rest => specKeptPairs rest
  | (_, QVal.undef) :: rest => specKeptPairs rest
  | (k, QVal.str s) :: rest => (k, s) :: specKeptPairs rest
  | (k, QVal.num n) :: rest => (k, toString n) :: specKeptPairs rest

lemma flatMapEntries_of_noUndef (ps : List (String × QVal))
    (h : ∀ p ∈ ps, p.2 ≠ QVal.undef) :
    flatMapEntries ps = some (specKeptPairs ps) := by
  induction ps with
  | nil => rfl
  | cons hd tl ih =>
    obtain ⟨k, v⟩ := hd
    have htl : ∀ p ∈ tl, p.2 ≠ QVal.undef := fun p hp => h p (List.mem_cons_of_mem _ hp)
    cases v with
    | null => simpa [flatMapEntries, specKeptPairs] using ih htl
    | undef => exact absurd rfl (h (k, QVal.undef) (List.mem_cons_self _ _))
    | str s => simp [flatMapEntries, specKeptPairs, ih htl]
    | num n => simp [flatMapEntries, specKeptPairs, ih htl]

lemma specKeptPairs_keys_sublist (ps : List (String × QVal)) :
    ((specKeptPairs ps).map Prod.fst).Sublist (ps.map Prod.fst) := by
  induction ps with
  | nil => simp [specKeptPairs]
  | cons hd tl ih =>
    obtain ⟨k, v⟩ := hd
    cases v with
    | null => exact (by simpa [specKeptPairs] using ih.cons k)
    | undef => exact (by simpa [specKeptPairs] using ih.cons k)
    | str s => simpa [specKeptPairs] using ih.cons₂ k
    | num n => simpa [specKeptPairs] using ih.cons₂ k

lemma foldl_setEntry_of_nodup (ps : List (String × String)) :
    ∀ m : List (String × String),
      ((m.map Prod.fst) ++ (ps.map Prod.fst)).Nodup →
      ps.foldl (fun acc p => setEntry acc p.1 p.2) m = m ++ ps := by
  induction ps with
  | nil => intro m _; simp
  | cons hd tl ih =>
    intro m hnd
    obtain ⟨k, v⟩ := hd
    have hknot : k ∉ m.map Prod.fst := by
      rcases List.nodup_append.mp hnd with ⟨_, _, hdisj⟩
      intro hk
      exact hdisj hk (by simp)
    have hany : m.any (fun p => p.1 = k) = false := by
      rw [List.any_eq_false]
      intro p hp
      simp only [decide_eq_true_eq]
      intro hpk
      exact hknot (hpk ▸ List.mem_map_of_mem Prod.fst hp)
    have hset : setEntry m k v = m ++ [(k, v)] := by
      simp [setEntry, hany]
    have hnd2 : (((m ++ [(k, v)]).map Prod.fst) ++ (tl.map Prod.fst)).Nodup := by
      simpa using hnd
    calc ((k, v) :: tl).foldl (fun acc p => setEntry acc p.1 p.2) m
        = tl.foldl (fun acc p => setEntry acc p.1 p.2) (m ++ [(k, v)]) := by
          simp [List.foldl_cons, hset]
      _ = (m ++ [(k, v)]) ++ tl := ih (m ++ [(k, v)]) hnd2
      _ = m ++ (k, v) :: tl := by simp

lemma fromEntriesJs_of_nodup (ps : List (String × String))
    (h : (ps.map Prod.fst).Nodup) : fromEntriesJs ps = ps := by
  have := foldl_setEntry_of_nodup ps [] (by simpa using h)
  simpa [fromEntriesJs] using this

/-- C4: for every params record (declared type: values are strings,
numbers, or null; record keys are distinct), the query string consists of
exactly the key/value pairs whose value is neither absent nor null, each
value stringified, and nothing else; `{limit: 10, cursor: null}` yields
`"limit=10"` with `cursor` omitted entirely, and an empty or absent
record yields the empty string. -/
theorem claim_C4_query_string_builder
    (ps : List (String × QVal))
    (hundef : ∀ p ∈ ps, p.2 ≠ QVal.undef)
    (hkeys : (ps.map Prod.fst).Nodup) :
    queryParamsToString (some ps) = some (serializeSearchParams (specKeptPairs ps))
    ∧ queryParamsToString (some [("limit", QVal.num 10), ("cursor", QVal.null)])
        = some "limit=10"
    ∧ queryParamsToString (some []) = some ""
    ∧ queryParamsToString none = some "" := by
  refine ⟨?_, by decide, by decide, rfl⟩
  have h1 := flatMapEntries_of_noUndef ps hundef
  have h2 : fromEntriesJs (specKeptPairs ps) = specKeptPairs ps :=
    fromEntriesJs_of_nodup _ ((specKeptPairs_keys_sublist ps).nodup hkeys)
  simp [queryParamsToString, h1, h2]

/-- Witness for C4 at the record of the claim. -/
theorem claim_C4_witness :
    queryParamsToString (some [("limit", QVal.num 10), ("cursor", QVal.null)])
      = some "limit=10" :=
  (claim_C4_query_string_builder [("limit", QVal.num 10), ("cursor", QVal.null)]
    (by decide) (by decide)).2.1

lemma flatMapEntries_eq_none_of_undef (ps : List (String × QVal)) (k : String)
    (h : (k, QVal.undef) ∈ ps) : flatMapEntries ps = none := by
  induction ps with
  | nil => cases h
  | cons hd tl ih =>
    obtain ⟨k2, v⟩ := hd
    cases v with
    | undef => rfl
    | null =>
      have : (k, QVal.undef) ∈ tl := by
        rcases List.mem_cons.mp h with heq | hmem
        · cases heq
        · exact hmem
      simp [flatMapEntries, ih this]
    | str s =>
      have : (k, QVal.undef) ∈ tl := by
        rcases List.mem_cons.mp h with heq | hmem
        · cases heq
        · exact hmem
      simp [flatMapEntries, ih this]
    | num n =>
      have : (k, QVal.undef) ∈ tl := by
        rcases List.mem_cons.mp h with heq | hmem
        · cases heq
        · exact hmem
      simp [flatMapEntries, ih this]

/-- C10: a params record containing a key whose value is explicitly
`undefined` makes `queryParamsToString` fault (a `TypeError` from
`value.toString()`) instead of omitting the pair — only null values are
filtered out — while the builder never faults when every present value
is a string, a number, or null. -/
theorem claim_C10_undefined_value_faults
    (ps : List (String × QVal)) (k : String)
    (hmem : (k, QVal.undef) ∈ ps) :
    queryParamsToString (some ps) = none
    ∧ (∀ qs : List (String × QVal), (∀ p ∈ qs, p.2 ≠ QVal.undef) →
        (queryParamsToString (some qs)).isSome = true) := by
  constructor
  · simp [queryParamsToString, flatMapEntries_eq_none_of_undef ps k hmem]
  · intro qs h
    simp [queryParamsToString, flatMapEntries_of_noUndef qs h]

/-- Witness for C10: an explicitly-undefined cursor makes the builder
fault. -/
theorem claim_C10_witness :
    queryParamsToString (some [("cursor", QVal.undef)]) = none :=
  (claim_C10_undefined_value_faults [("cursor", QVal.undef)] "cursor" (by decide)).1

/-- C1: the decoding of a `readDocument` response is determined solely by
the format argument — the handler's result depends on the response only
through its status and body, never through its headers, and for a 2xx
response `xml` yields the raw text, `pdf` the raw bytes, and `json` (the
remaining case) the parsed object. -/
theorem claim_C1_readDocument_decode_by_format
    (format : Option DocumentFormat) (r r2 : Response)
    (hs : r.status = r2.status) (hb : r.bodyText = r2.bodyText) :
    Client.readDocumentHandle format r = Client.readDocumentHandle format r2
    ∧ (r.ok = true →
        Client.readDocumentHandle (some DocumentFormat.xml) r
            = Except.ok (ReadDocumentResult.xmlText (Response.text r))
        ∧ Client.readDocumentHandle (some DocumentFormat.pdf) r
            = Except.ok (ReadDocumentResult.pdfBinary (Response.arrayBuffer r))
        ∧ (∀ d, Response.json r = some d →
            Client.readDocumentHandle (some DocumentFormat.json) r
              = Except.ok (ReadDocumentResult.jsonDoc d))) := by
  constructor
  · have hok : r.ok = r2.ok := by simp [Response.ok, hs]
    have hj : Response.json r = Response.json r2 := by simp [Response.json, hb]
    simp only [Client.readDocumentHandle, ApiError.fromResponse, Response.text,
      Response.arrayBuffer, hok, hj, hs, hb]
  · intro hok
    refine ⟨?_, ?_, ?_⟩
    · simp [Client.readDocumentHandle, hok, Response.text]
    · simp [Client.readDocumentHandle, hok, Response.arrayBuffer]
    · intro d hd
      simp [Client.readDocumentHandle, hok, hd]

/-- Witness for C1: two responses that differ only in their headers
decode identically, and an xml-format 2xx response yields its raw text. -/
theorem claim_C1_witness :
    Client.readDocumentHandle (some DocumentFormat.xml)
        { status := 200, headers := [("x-extra", "1")], bodyText := "<a/>" }
      = Except.ok (ReadDocumentResult.xmlText "<a/>") :=
  ((claim_C1_readDocument_decode_by_format (some DocumentFormat.xml)
      { status := 200, headers := [("x-extra", "1")], bodyText := "<a/>" }
      { status := 200, headers := [("x-extra", "2")], bodyText := "<a/>" }
      rfl rfl).2 (by decide)).1

/-- C2: at the failing input — `readDocument` called with no format
argument — the request carries `format=json` and a 2xx response is
decoded with `response.json()` into the parsed Document object, yet the
matching TypeScript overload signature (source line 98) declares
`Promise<ArrayBuffer>`, not the Document type the runtime value has. -/
theorem claim_C2_readDocument_default_overload_mismatch :
    (Client.readDocumentRequest (Client.make "k" none) "doc1" none).url
        = "https://www.rechnungs-api.de/api/v1/documents/doc1?format=json"
    ∧ Client.readDocumentHandle none { status := 200, headers := [], bodyText := "\x7b\x7d" }
        = Except.ok (ReadDocumentResult.jsonDoc (Json.obj []))
    ∧ ReadDocumentResult.tsType (ReadDocumentResult.jsonDoc (Json.obj [])) = TsType.documentTy
    ∧ readDocumentDeclaredReturn none = TsType.arrayBufferTy
    ∧ TsType.arrayBufferTy ≠ TsType.documentTy :=
  ⟨rfl, rfl, rfl, rfl, by decide⟩

/-- C3: every client method maps a non-2xx response to the single thrown
`ApiError` whose status is the HTTP status code and whose body is the
JSON-parsed response body; the mapping is the same for all eleven
endpoints and looks at nothing else of the response. -/
theorem claim_C3_uniform_error_mapping
    (r : Response) (b : Json)
    (hok : r.ok = false) (hb : Response.json r = some b) :
    Client.createDocumentHandle r
        = Except.error (Thrown.apiError { status := r.status, body := b })
    ∧ (∀ format, Client.readDocumentHandle format r
        = Except.error (Thrown.apiError { status := r.status, body := b }))
    ∧ Client.listLedgersHandle r
        = Except.error (Thrown.apiError { status := r.status, body := b })
    ∧ Client.createLedgerHandle r
        = Except.error (Thrown.apiError { status := r.status, body := b })
    ∧ Client.deleteLedgerHandle r
        = Except.error (Thrown.apiError { status := r.status, body := b })
    ∧ Client.listLedgerAccountsHandle r
        = Except.error (Thrown.apiError { status := r.status, body := b })
    ∧ Client.createLedgerAccountHandle r
        = Except.error (Thrown.apiError { status := r.status, body := b })
    ∧ Client.listLedgerTransactionsHandle r
        = Except.error (Thrown.apiError { status := r.status, body := b })
    ∧ Client.createLedgerTransactionHandle r
        = Except.error (Thrown.apiError { status := r.status, body := b })
    ∧ Client.archiveLedgerTransactionHandle r
        = Except.error (Thrown.apiError { status := r.status, body := b })
    ∧ Client.listLedgerBalancesHandle r
        = Except.error (Thrown.apiError { status := r.status, body := b }) := by
  have herr : ApiError.fromResponse r = Except.ok { status := r.status, body := b } := by
    simp [ApiError.fromResponse, hb]
  refine ⟨?_, fun format => ?_, ?_, ?_, ?_, ?_, ?_, ?_, ?_, ?_, ?_⟩ <;>
    simp [Client.createDocumentHandle, Client.readDocumentHandle,
      Client.listLedgersHandle, Client.createLedgerHandle, Client.deleteLedgerHandle,
      Client.listLedgerAccountsHandle, Client.createLedgerAccountHandle,
      Client.listLedgerTransactionsHandle, Client.createLedgerTransactionHandle,
      Client.archiveLedgerTransactionHandle, Client.listLedgerBalancesHandle,
      hok, herr]

/-- Witness for C3: a 404 with a JSON body becomes the `ApiError`
carrying 404 and the parsed body. -/
theorem claim_C3_witness :
    Client.deleteLedgerHandle
        { status := 404, headers := [], bodyText := "\x7b\"error\":true\x7d" }
      = Except.error (Thrown.apiError
          { status := 404, body := Json.obj [("error", Json.bool true)] }) :=
  (claim_C3_uniform_error_mapping
    { status := 404, headers := [], bodyText := "\x7b\"error\":true\x7d" }
    (Json.obj [("error", Json.bool true)]) rfl rfl).2.2.2.2.1

/-- C5: `archiveLedgerTransaction` issues a DELETE against
`/ledgers/{ledgerId}/transactions/{transactionNumber}` under the base
URL, and on a 2xx response returns the JSON-parsed body — per the
source's documentation the newly created reversing transaction, not the
archived original. -/
theorem claim_C5_archiveLedgerTransaction
    (c : Client) (ledgerId : String) (transactionNumber : Int)
    (r : Response) (j : Json)
    (hok : r.ok = true) (hj : Response.json r = some j) :
    Client.archiveLedgerTransactionRequest c ledgerId transactionNumber
      = { url := c.baseUrl ++ "/ledgers/" ++ ledgerId ++ "/transactions/"
            ++ toString transactionNumber,
          httpMethod := "DELETE", headers := Client.headers c, body := none }
    ∧ Client.archiveLedgerTransactionHandle r = Except.ok j := by
  refine ⟨rfl, ?_⟩
  simp [Client.archiveLedgerTransactionHandle, hok, hj]

/-- Witness for C5: a 2xx archive response body is returned parsed. -/
theorem claim_C5_witness :
    Client.archiveLedgerTransactionHandle
        { status := 200, headers := [], bodyText := "\x7b\"number\":7\x7d" }
      = Except.ok (Json.obj [("number", Json.num "7")]) :=
  (claim_C5_archiveLedgerTransaction (Client.make "k" none) "L1" 3
    { status := 200, headers := [], bodyText := "\x7b\"number\":7\x7d" }
    (Json.obj [("number", Json.num "7")]) rfl rfl).2

/-- C6: every request built by any of the eleven client methods carries
the header `Authorization: ApiKey <key>` with the key given at
construction. -/
theorem claim_C6_authorization_header
    (c : Client) (document account transaction : Json) (id ledgerId : String)
    (format : Option DocumentFormat) (n : Int)
    (qp : List (String × QVal)) (qpo : Option (List (String × QVal))) :
    ("Authorization", "ApiKey " ++ c.apiKey)
        ∈ (Client.createDocumentRequest c document).headers
    ∧ ("Authorization", "ApiKey " ++ c.apiKey)
        ∈ (Client.readDocumentRequest c id format).headers
    ∧ (∀ req, Client.listLedgersRequest c qp = some req →
        ("Authorization", "ApiKey " ++ c.apiKey) ∈ req.headers)
    ∧ ("Authorization", "ApiKey " ++ c.apiKey)
        ∈ (Client.createLedgerRequest c).headers
    ∧ ("Authorization", "ApiKey " ++ c.apiKey)
        ∈ (Client.deleteLedgerRequest c ledgerId).headers
    ∧ (∀ req, Client.listLedgerAccountsRequest c ledgerId qp = some req →
        ("Authorization", "ApiKey " ++ c.apiKey) ∈ req.headers)
    ∧ ("Authorization", "ApiKey " ++ c.apiKey)
        ∈ (Client.createLedgerAccountRequest c ledgerId account).headers
    ∧ (∀ req, Client.listLedgerTransactionsRequest c ledgerId qp = some req →
        ("Authorization", "ApiKey " ++ c.apiKey) ∈ req.headers)
    ∧ ("Authorization", "ApiKey " ++ c.apiKey)
        ∈ (Client.createLedgerTransactionRequest c ledgerId transaction).headers
    ∧ ("Authorization", "ApiKey " ++ c.apiKey)
        ∈ (Client.archiveLedgerTransactionRequest c ledgerId n).headers
    ∧ (∀ req, Client.listLedgerBalancesRequest c ledgerId qpo = some req →
        ("Authorization", "ApiKey " ++ c.apiKey) ∈ req.headers) := by
  refine ⟨?_, ?_, ?_, ?_, ?_, ?_, ?_, ?_, ?_, ?_, ?_⟩ <;>
    first
    | simp [Client.createDocumentRequest, Client.readDocumentRequest,
        Client.createLedgerRequest, Client.deleteLedgerRequest,
        Client.createLedgerAccountRequest, Client.createLedgerTransactionRequest,
        Client.archiveLedgerTransactionRequest, Client.headers]
    | · intro req h
        rcases Option.map_eq_some'.mp h with ⟨qs, hqs, rfl⟩
        simp [Client.headers]

/-- Witness for C6: the Authorization header of a concrete request. -/
theorem claim_C6_witness :
    ("Authorization", "ApiKey secret")
      ∈ (Client.createDocumentRequest (Client.make "secret" none) Json.null).headers :=
  (claim_C6_authorization_header (Client.make "secret" none) Json.null Json.null
    Json.null "d" "L" none 0 [] none).1

/-- C7: no public method of the Client deletes or updates a
LedgerAccount or LedgerTransaction: every method uses GET, POST or
DELETE (never PUT or PATCH), the methods addressing account resources
use only GET and POST, and the only method that issues DELETE against a
transaction resource is `archiveLedgerTransaction`, whose response is
the newly created reversing transaction. -/
theorem claim_C7_no_account_or_transaction_delete
    (c : Client) (document account transaction : Json) (id ledgerId : String)
    (format : Option DocumentFormat) (n : Int)
    (qp : List (String × QVal)) (qpo : Option (List (String × QVal))) :
    (Client.createDocumentRequest c document).httpMethod = "POST"
    ∧ (Client.readDocumentRequest c id format).httpMethod = "GET"
    ∧ (∀ req, Client.listLedgersRequest c qp = some req → req.httpMethod = "GET")
    ∧ (Client.createLedgerRequest c).httpMethod = "POST"
    ∧ (Client.deleteLedgerRequest c ledgerId).httpMethod = "DELETE"
    ∧ (∀ req, Client.listLedgerAccountsRequest c ledgerId qp = some req →
        req.httpMethod = "GET")
    ∧ (Client.createLedgerAccountRequest c ledgerId account).httpMethod = "POST"
    ∧ (∀ req, Client.listLedgerTransactionsRequest c ledgerId qp = some req →
        req.httpMethod = "GET")
    ∧ (Client.createLedgerTransactionRequest c ledgerId transaction).httpMethod = "POST"
    ∧ (Client.archiveLedgerTransactionRequest c ledgerId n).httpMethod = "DELETE"
    ∧ (∀ req, Client.listLedgerBalancesRequest c ledgerId qpo = some req →
        req.httpMethod = "GET")
    ∧ (∀ row ∈ clientMethodTable, row.2.1 ≠ "PUT" ∧ row.2.1 ≠ "PATCH")
    ∧ (∀ row ∈ clientMethodTable, row.2.2 = ApiResource.ledgerAccounts →
        row.2.1 = "GET" ∨ row.2.1 = "POST")
    ∧ (∀ row ∈ clientMethodTable,
        (row.2.2 = ApiResource.ledgerTransactions
          ∨ row.2.2 = ApiResource.ledgerTransactionByNumber) →
        row.2.1 = "DELETE" → row.1 = "archiveLedgerTransaction") := by
  refine ⟨rfl, rfl, ?_, rfl, rfl, ?_, rfl, ?_, rfl, rfl, ?_, by decide, by decide, by decide⟩ <;>
    · intro req h
      rcases Option.map_eq_some'.mp h with ⟨qs, hqs, rfl⟩
      rfl

/-- Witness for C7: the archive request is the DELETE, and a concretely
built list request is a GET. -/
theorem claim_C7_witness :
    (Client.archiveLedgerTransactionRequest (Client.make "k" none) "L" 5).httpMethod
        = "DELETE"
    ∧ HttpRequest.httpMethod
        { url := "https://www.rechnungs-api.de/api/v1/ledgers?", httpMethod := "GET",
          headers := [("Authorization", "ApiKey k"), ("Content-Type", "application/json")],
          body := none } = "GET" :=
  ⟨(claim_C7_no_account_or_transaction_delete (Client.make "k" none) Json.null Json.null
      Json.null "d" "L" none 5 [] none).2.2.2.2.2.2.2.2.2.1,
   (claim_C7_no_account_or_transaction_delete (Client.make "k" none) Json.null Json.null
      Json.null "d" "L" none 5 [] none).2.2.1
     { url := "https://www.rechnungs-api.de/api/v1/ledgers?", httpMethod := "GET",
       headers := [("Authorization", "ApiKey k"), ("Content-Type", "application/json")],
       body := none } rfl⟩

/-- C8: a client built without a base URL uses the production versioned
API root for every request URL, a supplied base URL overrides it, the
configuration is exactly the (apiKey, baseUrl) pair set at construction,
and every method's URL extends the configured base URL. -/
theorem claim_C8_base_url_configuration
    (k u : String) (c : Client) (document account transaction : Json)
    (id ledgerId : String) (format : Option DocumentFormat) (n : Int)
    (qp : List (String × QVal)) (qpo : Option (List (String × QVal))) :
    (Client.make k none).baseUrl = "https://www.rechnungs-api.de/api/v1"
    ∧ (Client.make k none).apiKey = k
    ∧ (Client.make k (some u)).baseUrl = u
    ∧ (Client.make k (some u)).apiKey = k
    ∧ (∀ c1 c2 : Client, c1.apiKey = c2.apiKey → c1.baseUrl = c2.baseUrl → c1 = c2)
    ∧ (Client.createDocumentRequest c document).url = c.baseUrl ++ "/documents"
    ∧ (Client.readDocumentRequest c id format).url
        = c.baseUrl ++ "/documents/" ++ id ++ "?format="
            ++ (format.getD DocumentFormat.json).toParamString
    ∧ (∀ qs, queryParamsToString (some qp) = some qs →
        Client.listLedgersRequest c qp
          = some { url := c.baseUrl ++ "/ledgers?" ++ qs, httpMethod := "GET",
                   headers := Client.headers c, body := none })
    ∧ (Client.createLedgerRequest c).url = c.baseUrl ++ "/ledgers"
    ∧ (Client.deleteLedgerRequest c ledgerId).url = c.baseUrl ++ "/ledgers/" ++ ledgerId
    ∧ (∀ qs, queryParamsToString (some qp) = some qs →
        Client.listLedgerAccountsRequest c ledgerId qp
          = some { url := c.baseUrl ++ "/ledgers/" ++ ledgerId ++ "/accounts?" ++ qs,
                   httpMethod := "GET", headers := Client.headers c, body := none })
    ∧ (Client.createLedgerAccountRequest c ledgerId account).url
        = c.baseUrl ++ "/ledgers/" ++ ledgerId ++ "/accounts"
    ∧ (∀ qs, queryParamsToString (some qp) = some qs →
        Client.listLedgerTransactionsRequest c ledgerId qp
          = some { url := c.baseUrl ++ "/ledgers/" ++ ledgerId ++ "/transactions?" ++ qs,
                   httpMethod := "GET", headers := Client.headers c, body := none })
    ∧ (Client.createLedgerTransactionRequest c ledgerId transaction).url
        = c.baseUrl ++ "/ledgers/" ++ ledgerId ++ "/transactions"
    ∧ (Client.archiveLedgerTransactionRequest c ledgerId n).url
        = c.baseUrl ++ "/ledgers/" ++ ledgerId ++ "/transactions/" ++ toString n
    ∧ (∀ qs, queryParamsToString qpo = some qs →
        Client.listLedgerBalancesRequest c ledgerId qpo
          = some { url := c.baseUrl ++ "/ledgers/" ++ ledgerId ++ "/balances?" ++ qs,
                   httpMethod := "GET", headers := Client.headers c, body := none }) := by
  refine ⟨rfl, rfl, rfl, rfl, ?_, rfl, rfl, ?_, rfl, rfl, ?_, rfl, ?_, rfl, rfl, ?_⟩
  · intro c1 c2 h1 h2
    cases c1; cases c2; simp_all
  all_goals
    intro qs h
    simp [Client.listLedgersRequest, Client.listLedgerAccountsRequest,
      Client.listLedgerTransactionsRequest, Client.listLedgerBalancesRequest, h]

/-- Witness for C8: default base URL, and a fully evaluated list
request against it. -/
theorem claim_C8_witness :
    (Client.make "k" none).baseUrl = "https://www.rechnungs-api.de/api/v1"
    ∧ Client.listLedgersRequest (Client.make "k" none) []
        = some { url := "https://www.rechnungs-api.de/api/v1/ledgers?",
                 httpMethod := "GET",
                 headers := [("Authorization", "ApiKey k"),
                             ("Content-Type", "application/json")],
                 body := none } :=
  ⟨(claim_C8_base_url_configuration "k" "u" (Client.make "k" none) Json.null Json.null
      Json.null "d" "L" none 0 [] none).1,
   (claim_C8_base_url_configuration "k" "u" (Client.make "k" none) Json.null Json.null
      Json.null "d" "L" none 0 [] none).2.2.2.2.2.2.2.1 "" rfl⟩

/-- C9: when the body of a response is not valid JSON,
`ApiError.fromResponse` does not produce an `ApiError` at all — the JSON
decode failure propagates — so every method's non-2xx path throws the
`SyntaxError`, not the uniform error value. -/
theorem claim_C9_nonjson_error_body_propagates
    (r : Response) (hbad : Response.json r = none) :
    ApiError.fromResponse r = Except.error Thrown.jsonSyntaxError
    ∧ (∀ e : ApiError, ApiError.fromResponse r ≠ Except.ok e)
    ∧ (r.ok = false →
        Client.createDocumentHandle r = Except.error Thrown.jsonSyntaxError
        ∧ (∀ format, Client.readDocumentHandle format r
            = Except.error Thrown.jsonSyntaxError)
        ∧ Client.listLedgersHandle r = Except.error Thrown.jsonSyntaxError
        ∧ Client.createLedgerHandle r = Except.error Thrown.jsonSyntaxError
        ∧ Client.deleteLedgerHandle r = Except.error Thrown.jsonSyntaxError
        ∧ Client.listLedgerAccountsHandle r = Except.error Thrown.jsonSyntaxError
        ∧ Client.createLedgerAccountHandle r = Except.error Thrown.jsonSyntaxError
        ∧ Client.listLedgerTransactionsHandle r = Except.error Thrown.jsonSyntaxError
        ∧ Client.createLedgerTransactionHandle r = Except.error Thrown.jsonSyntaxError
        ∧ Client.archiveLedgerTransactionHandle r = Except.error Thrown.jsonSyntaxError
        ∧ Client.listLedgerBalancesHandle r = Except.error Thrown.jsonSyntaxError) := by
  have hfr : ApiError.fromResponse r = Except.error Thrown.jsonSyntaxError := by
    simp [ApiError.fromResponse, hbad]
  refine ⟨hfr, ?_, ?_⟩
  · intro e he
    rw [hfr] at he
    cases he
  · intro hok
    refine ⟨?_, fun format => ?_, ?_, ?_, ?_, ?_, ?_, ?_, ?_, ?_, ?_⟩ <;>
      simp [Client.createDocumentHandle, Client.readDocumentHandle,
        Client.listLedgersHandle, Client.createLedgerHandle, Client.deleteLedgerHandle,
        Client.listLedgerAccountsHandle, Client.createLedgerAccountHandle,
        Client.listLedgerTransactionsHandle, Client.createLedgerTransactionHandle,
        Client.archiveLedgerTransactionHandle, Client.listLedgerBalancesHandle,
        hok, hfr]

/-- Witness for C9: a 500 with a non-JSON body yields the propagated
decode failure, not an ApiError. -/
theorem claim_C9_witness :
    ApiError.fromResponse { status := 500, headers := [], bodyText := "oops" }
      = Except.error Thrown.jsonSyntaxError :=
  (claim_C9_nonjson_error_body_propagates
    { status := 500, headers := [], bodyText := "oops" } rfl).1
